import Mathlib

/-!
Verification of `cursor_notifier.py` (cursor-notifier repository).

The development shallowly embeds the program's components:
* the activity classifier `_detect_active` and its regular expression
  `TOKEN_REGEX = \b(\d+\s+tokens|tokens)\b` (case-insensitive), modelled as an
  executable scanner over lists of characters plus a declarative match
  predicate proved equivalent;
* the transition tracker `_maybe_notify_transition` with its per-pane state
  map, modelled as a pure step function on an association list;
* the notification dispatcher `_send_idle_notification`,
  `_post_discord_message` and `_get_git_branch`, with external outcomes
  (HTTP responses, git subprocess results) passed in as explicit data;
* the monitoring filter `_should_monitor_pane`, with the configured regex
  objects abstracted as boolean predicates and the fallback capture outcome
  passed in explicitly.
-/

/-! ### Character classes (Python `re` semantics, ASCII range) -/

/-- Python word character for `\b` / `\w`, ASCII range: `[A-Za-z0-9_]`. -/
def isWordChar (c : Char) : Bool :=
  c.isAlpha || c.isDigit || c == '_'

/-- Python whitespace for `\s` and `str.strip()`, ASCII range. -/
def isPySpace (c : Char) : Bool :=
  c == ' ' || c == '\t' || c == '\n' || c == '\r' || c == '\x0b' || c == '\x0c'

/-- Line-break characters recognised by Python `str.splitlines`. -/
def isLineBreakChar (c : Char) : Bool :=
  c == '\n' || c == '\r' || c == '\x0b' || c == '\x0c' ||
  c == '\x1c' || c == '\x1d' || c == '\x1e' || c == '\x85' ||
  c == '\u2028' || c == '\u2029'

/-! ### Python string primitives used by `_detect_active` -/

/-- Worker for `str.splitlines`: `acc` is the current line, reversed. -/
def pySplitlinesAux : List Char → List Char → List (List Char)
  | acc, [] => [acc.reverse]
  | acc, '\r' :: '\n' :: cs =>
      acc.reverse :: (if cs.isEmpty then [] else pySplitlinesAux [] cs)
  | acc, c :: cs =>
      if isLineBreakChar c then
        acc.reverse :: (if cs.isEmpty then [] else pySplitlinesAux [] cs)
      else
        pySplitlinesAux (c :: acc) cs

/-- Python `str.splitlines`: `""` gives no lines; a trailing line break does
not produce a final empty line. -/
def pySplitlines (s : List Char) : List (List Char) :=
  match s with
  | [] => []
  | _ => pySplitlinesAux [] s

/-- Python `str.strip()`: drop leading and trailing whitespace. -/
def pyStrip (s : List Char) : List Char :=
  ((s.dropWhile isPySpace).reverse.dropWhile isPySpace).reverse

/-- `"\n".join` on lists of characters. -/
def intercalateNL : List (List Char) → List Char
  | [] => []
  | [l] => l
  | l :: ls => l ++ '\n' :: intercalateNL ls

/-- Python `xs[-n:]`: the last `n` elements (all of them when fewer). -/
def lastN (n : Nat) (xs : List α) : List α :=
  xs.drop (xs.length - n)

/-! ### The token regular expression

`TOKEN_REGEX = re.compile(r"\b(\d+\s+tokens|tokens)\b", re.IGNORECASE)`.

Both alternatives start and end with word characters, so the surrounding
`\b` assertions amount to: the character before the match (if any) is not a
word character, and the character after the match (if any) is not a word
character.  In `\d+\s+` the greedy maximal-run scan is exact because the
digit class, the space class and the letter `t` are pairwise disjoint, so no
backtracking can ever succeed where the maximal run fails. -/

/-- The literal `tokens`, lower case. -/
def tokensLit : List Char := ['t', 'o', 'k', 'e', 'n', 's']

/-- Case-insensitive literal match: on success returns the rest of the
input after the literal. -/
def matchLit : List Char → List Char → Option (List Char)
  | [], s => some s
  | _ :: _, [] => none
  | p :: ps, c :: cs => if c.toLower == p then matchLit ps cs else none

/-- The trailing `\b`: the next character, if any, is not a word character. -/
def rightBoundaryOk : List Char → Bool
  | [] => true
  | c :: _ => !isWordChar c

/-- Match `tokens\b` at the start of `s` (case-insensitive). -/
def matchTokensHere (s : List Char) : Bool :=
  match matchLit tokensLit s with
  | some rest => rightBoundaryOk rest
  | none => false

/-- Match `\d+\s+tokens\b` at the start of `s` (case-insensitive): a
non-empty maximal digit run, a non-empty maximal whitespace run, then the
literal with its trailing boundary. -/
def matchDigitsTokensHere (s : List Char) : Bool :=
  let rest1 := s.dropWhile Char.isDigit
  !(s.takeWhile Char.isDigit).isEmpty &&
    (!(rest1.takeWhile isPySpace).isEmpty && matchTokensHere (rest1.dropWhile isPySpace))

/-- The leading `\b` seen from the previous character (`none` = start of
string): both alternatives begin with a word character, so the previous
character must not be one. -/
def prevOk : Option Char → Bool
  | none => true
  | some c => !isWordChar c

/-- `re.search` for the whole `TOKEN_REGEX`: try a match at every
position; `prev` is the character just before the current position. -/
def tokenSearchFrom : Option Char → List Char → Bool
  | _, [] => false
  | prev, c :: cs =>
      (prevOk prev && (matchDigitsTokensHere (c :: cs) || matchTokensHere (c :: cs)))
      || tokenSearchFrom (some c) cs

/-- `re.search` for the first alternative `\b\d+\s+tokens\b` alone. -/
def digitsTokensSearchFrom : Option Char → List Char → Bool
  | _, [] => false
  | prev, c :: cs =>
      (prevOk prev && matchDigitsTokensHere (c :: cs))
      || digitsTokensSearchFrom (some c) cs

/-! ### The activity classifier `_detect_active` -/

/-- The non-empty stripped lines of a text
(`[ln.strip() for ln in text.splitlines() if ln.strip()]`). -/
def strippedLines (text : String) : List (List Char) :=
  ((pySplitlines text.data).map pyStrip).filter (fun l => !l.isEmpty)

/-- The last 20 non-empty stripped lines (`lines[-20:]`). -/
def tailLines (text : String) : List (List Char) :=
  lastN 20 (strippedLines text)

/-- The classification window: `"\n".join(lines[-20:])`. -/
def tailJoined (text : String) : List Char :=
  intercalateNL (tailLines text)

/-- `_detect_active`: does `TOKEN_REGEX` match the joined 20-line tail? -/
def detect_active (text : String) : Bool :=
  tokenSearchFrom none (tailJoined text)

/-! ### Data model: panes and per-pane tracker state -/

/-- One observed tmux pane (the `Pane` dataclass). -/
structure Pane where
  session_name : String
  window_index : String
  pane_index : String
  pane_id : String
  is_active_flag : Bool
  current_path : String
  pane_pid : String
  current_command : String
deriving DecidableEq, Repr

/-- `Pane.human_ref`: `f"{session_name}:{window_index}.{pane_index}"`. -/
def Pane.human_ref (p : Pane) : String :=
  p.session_name ++ ":" ++ p.window_index ++ "." ++ p.pane_index

/-- Per-pane memory (the `PaneState` dataclass); time is modelled as `Nat`,
with `0` for the initial `0.0` timestamp. -/
structure PaneState where
  last_seen_active : Option Bool := none
  last_transition_ts : Nat := 0
deriving DecidableEq, Repr

instance : Inhabited PaneState := ⟨{}⟩

/-- Lookup in the `pane_id_to_state` map (association list). -/
def lookupA : List (String × PaneState) → String → Option PaneState
  | [], _ => none
  | (k, v) :: rest, key => if k == key then some v else lookupA rest key

/-- In-place update / append in the `pane_id_to_state` map. -/
def insertA : List (String × PaneState) → String → PaneState → List (String × PaneState)
  | [], key, v => [(key, v)]
  | (k, w) :: rest, key, v =>
      if k == key then (k, v) :: rest else (k, w) :: insertA rest key v

/-- The state `dict.setdefault` would hand back for a pane identity. -/
def getState (m : List (String × PaneState)) (pid : String) : PaneState :=
  (lookupA m pid).getD {}

/-! ### External collaborator outcomes -/

/-- Outcome of the `git rev-parse --abbrev-ref HEAD` subprocess call:
either it ran (with exit code and stdout) or it raised (e.g. timeout). -/
inductive GitResult
  | ran (returncode : Int) (stdout : String)
  | exc
deriving DecidableEq, Repr

/-- `_get_git_branch`: strip stdout; only a zero exit code with non-empty
output different from `"HEAD"` yields a branch; every failure is `none`. -/
def get_git_branch (r : GitResult) : Option String :=
  match r with
  | .exc => none
  | .ran rc out =>
      let o : String := ⟨pyStrip out.data⟩
      if rc = 0 ∧ o ≠ "" ∧ o ≠ "HEAD" then some o else none

/-- Outcome of the HTTP POST to the webhook endpoint: a response status, or
a raised transport/timeout error. -/
inductive PostResult
  | success (status : Nat)
  | failure
deriving DecidableEq, Repr

/-- `_post_discord_message`: raises (`.error`) when the webhook URL is
missing, when the transport fails, or when the status is not 2xx. -/
def post_discord_message (webhook_url : Option String) (content : String)
    (resp : PostResult) : Except String Unit :=
  match webhook_url with
  | none => .error "webhook_url missing"
  | some _ =>
      match resp with
      | .failure => .error ("transport failure posting " ++ content)
      | .success st =>
          if 200 ≤ st ∧ st < 300 then .ok ()
          else .error "Discord webhook status"

/-! ### Notification dispatcher -/

/-- What one call of `_send_idle_notification` did: the message it built
and logged, how many HTTP POST attempts it made, and whether one
succeeded. -/
structure NotifyResult where
  message : String
  attempts : Nat
  delivered : Bool
deriving DecidableEq, Repr

/-- The message text `_send_idle_notification` builds (the separator is the
exact three-character sequence found in the source literal): reference,
path, and the branch parenthetical when a branch was resolved. -/
def idle_message (pane : Pane) (git : GitResult) : String :=
  "Cursor-Agent idle in " ++ pane.human_ref ++ " â€” " ++ pane.current_path ++
    (match get_git_branch git with
     | some b => " (branch " ++ b ++ ")"
     | none => "")

/-- `_send_idle_notification`: builds and logs the message, returns before
any delivery in dry-run mode, otherwise makes one delivery attempt and
catches any delivery error. -/
def send_idle_notification (dry_run : Bool) (webhook_url : Option String)
    (pane : Pane) (git : GitResult) (resp : PostResult) : NotifyResult :=
  let message := idle_message pane git
  if dry_run then ⟨message, 0, false⟩
  else
    match post_discord_message webhook_url message resp with
    | .ok _ => ⟨message, 1, true⟩
    | .error _ => ⟨message, 1, false⟩

/-! ### Transition tracker -/

/-- The four observable outcomes of one tracker step. -/
inductive TransitionEvent
  | Initialized
  | BecameIdle
  | BecameActive
  | NoChange
deriving DecidableEq, Repr

/-- The configuration the tracker step reads. -/
structure Config where
  webhook_url : Option String
  dry_run : Bool
deriving Repr

/-- Result of one `_maybe_notify_transition` call: the updated state map,
the transition event, whether `_send_idle_notification` was invoked, and
if so what it did. -/
structure StepResult where
  map : List (String × PaneState)
  event : TransitionEvent
  dispatched : Bool
  notify : Option NotifyResult
deriving Repr

/-- `_maybe_notify_transition`: first observation records the value and the
current time; an Active→Idle edge dispatches the notification and stamps
the time; an Idle→Active edge only stamps the time; otherwise nothing
changes (the unconditional `state.last_seen_active = looks_active` write
stores the value already present). -/
def maybe_notify_transition (cfg : Config) (m : List (String × PaneState))
    (pane : Pane) (looks_active : Bool) (now : Nat)
    (git : GitResult) (resp : PostResult) : StepResult :=
  let st := getState m pane.pane_id
  match st.last_seen_active with
  | none =>
      { map := insertA m pane.pane_id ⟨some looks_active, now⟩,
        event := .Initialized, dispatched := false, notify := none }
  | some prev =>
      if prev && !looks_active then
        let res := send_idle_notification cfg.dry_run cfg.webhook_url pane git resp
        { map := insertA m pane.pane_id ⟨some looks_active, now⟩,
          event := .BecameIdle, dispatched := true, notify := some res }
      else if !prev && looks_active then
        { map := insertA m pane.pane_id ⟨some looks_active, now⟩,
          event := .BecameActive, dispatched := false, notify := none }
      else
        { map := insertA m pane.pane_id ⟨some looks_active, st.last_transition_ts⟩,
          event := .NoChange, dispatched := false, notify := none }

/-- Per-poll external circumstances for one tracker step. -/
structure PollEnv where
  now : Nat
  git : GitResult
  resp : PostResult

/-- Feed a sequence of observations for one pane through the tracker,
collecting each step's event and whether it dispatched a notification. -/
def runSeq (cfg : Config) (m : List (String × PaneState)) (pane : Pane) :
    List (Bool × PollEnv) → List (String × PaneState) × List (TransitionEvent × Bool)
  | [] => (m, [])
  | (b, e) :: obs =>
      let s := maybe_notify_transition cfg m pane b e.now e.git e.resp
      let rest := runSeq cfg s.map pane obs
      (rest.1, (s.event, s.dispatched) :: rest.2)

/-! ### Monitoring filter -/

/-- `_should_monitor_pane`: the compiled regex objects are abstracted as
match predicates (`none` models an unconfigured pattern, i.e. a falsy
`self.match_command` / `self.match_text`); `cap` is the outcome of the
short 40-line fallback capture, `.error` modelling a raised exception. -/
def should_monitor_pane (match_command : Option (String → Bool))
    (match_text : Option (String → Bool)) (cap : Except Unit String)
    (pane : Pane) : Bool :=
  let match_by_cmd :=
    match match_command with
    | some p => p pane.current_command
    | none => false
  if match_by_cmd then true
  else
    match match_text with
    | some p =>
        match cap with
        | .ok tail_text => if p tail_text then true else false
        | .error _ => false
    | none => false

/-! ### Declarative reading of the token regular expression -/

/-- Declarative match of the group `(\d+\s+tokens|tokens)` (case
insensitive): a non-empty digit run, then non-empty whitespace, then the
literal; or the literal alone. -/
def MatchTok (m : List Char) : Prop :=
  (∃ ds ws t, m = ds ++ (ws ++ t) ∧ ds ≠ [] ∧ (∀ c ∈ ds, c.isDigit = true) ∧
      ws ≠ [] ∧ (∀ c ∈ ws, isPySpace c = true) ∧ t.map Char.toLower = tokensLit)
  ∨ m.map Char.toLower = tokensLit

/-- The leading word boundary: the effective previous character — the last
of the in-region text `p` before the match, else `prev` — is not a word
character. -/
def LeftOk (prev : Option Char) (p : List Char) : Prop :=
  prevOk (p.getLast?.or prev) = true

/-- The trailing word boundary of a match followed by `q`. -/
def RightOk (q : List Char) : Prop :=
  ∀ c, q.head? = some c → isWordChar c = false

/-- A whole-word occurrence of the token pattern somewhere in `s`. -/
def TokensOcc (s : List Char) : Prop :=
  ∃ p m q, s = p ++ (m ++ q) ∧ MatchTok m ∧ LeftOk none p ∧ RightOk q

/-- A concrete pane used to instantiate hypothesis-bearing theorems. -/
def samplePane : Pane :=
  ⟨"work", "0", "1", "%1", true, "/home/u/proj", "123", "cursor-agent"⟩

/-- A one-entry state map whose pane `%1` was last seen active. -/
def sampleMapActive : List (String × PaneState) := [("%1", ⟨some true, 5⟩)]

/-- The `bool(self.match_command and self.match_command.search(...))` test. -/
def cmd_matches (mc : Option (String → Bool)) (pane : Pane) : Bool :=
  match mc with
  | some p => p pane.current_command
  | none => false

/-- The fallback test: the text pattern, if configured, against the tiny
capture, when that capture succeeded. -/
def text_fallback (mt : Option (String → Bool)) (cap : Except Unit String) : Bool :=
  match mt, cap with
  | some p, .ok t => p t
  | _, _ => false

/-- The branch-free part of the idle message. -/
def base_message (pane : Pane) : String :=
  "Cursor-Agent idle in " ++ pane.human_ref ++ " â€” " ++ pane.current_path

theorem rightBoundaryOk_iff (q : List Char) : rightBoundaryOk q = true ↔ RightOk q := by
  cases q with
  | nil =>
      simp only [rightBoundaryOk, RightOk, List.head?_nil, true_iff]
      intro c h
      cases h
  | cons c cs =>
      simp only [rightBoundaryOk, RightOk, List.head?_cons, Bool.not_eq_true']
      constructor
      · rintro h d hd
        cases hd
        exact h
      · intro h
        exact h c rfl

theorem matchLit_eq_some :
    ∀ (pat s r : List Char),
      matchLit pat s = some r ↔ ∃ t, s = t ++ r ∧ t.map Char.toLower = pat
  | [], s, r => by
      constructor
      · intro h
        refine ⟨[], ?_, rfl⟩
        simpa [matchLit] using h
      · rintro ⟨t, rfl, ht⟩
        rw [List.map_eq_nil_iff] at ht
        subst ht
        simp [matchLit]
  | p :: ps, [], r => by
      constructor
      · intro h
        simp [matchLit] at h
      · rintro ⟨t, ht, hm⟩
        cases t with
        | nil => simp at hm
        | cons a t' => simp at ht
  | p :: ps, c :: cs, r => by
      simp only [matchLit]
      by_cases hc : c.toLower = p
      · simp only [hc, beq_self_eq_true, if_true]
        rw [matchLit_eq_some ps cs r]
        constructor
        · rintro ⟨t', rfl, ht'⟩
          exact ⟨c :: t', rfl, by simp [ht', hc]⟩
        · rintro ⟨t, ht, hm⟩
          cases t with
          | nil => simp at hm
          | cons a t' =>
              simp only [List.cons_append, List.cons.injEq] at ht
              simp only [List.map_cons, List.cons.injEq] at hm
              exact ⟨t', ht.2, hm.2⟩
      · have hcf : (c.toLower == p) = false := beq_eq_false_iff_ne.mpr hc
        simp only [hcf, if_false]
        constructor
        · intro h
          cases h
        · rintro ⟨t, ht, hm⟩
          cases t with
          | nil => simp at hm
          | cons a t' =>
              simp only [List.cons_append, List.cons.injEq] at ht
              simp only [List.map_cons, List.cons.injEq] at hm
              exact absurd (ht.1 ▸ hm.1) hc

theorem matchTokensHere_iff (s : List Char) :
    matchTokensHere s = true ↔
      ∃ t q, s = t ++ q ∧ t.map Char.toLower = tokensLit ∧ RightOk q := by
  constructor
  · intro h
    unfold matchTokensHere at h
    cases hml : matchLit tokensLit s with
    | none => rw [hml] at h; cases h
    | some rest =>
        rw [hml] at h
        obtain ⟨t, hst, ht⟩ := (matchLit_eq_some tokensLit s rest).mp hml
        exact ⟨t, rest, hst, ht, (rightBoundaryOk_iff rest).mp h⟩
  · rintro ⟨t, q, rfl, ht, hq⟩
    have hml : matchLit tokensLit (t ++ q) = some q :=
      (matchLit_eq_some tokensLit (t ++ q) q).mpr ⟨t, rfl, ht⟩
    unfold matchTokensHere
    rw [hml]
    exact (rightBoundaryOk_iff q).mpr hq

theorem takeWhile_append_all {p : Char → Bool} :
    ∀ (xs ys : List Char), (∀ a ∈ xs, p a = true) →
      (∀ c, ys.head? = some c → p c = false) →
      (xs ++ ys).takeWhile p = xs ∧ (xs ++ ys).dropWhile p = ys
  | [], ys, _, hy => by
      cases ys with
      | nil => simp
      | cons c cs =>
          have hc := hy c rfl
          simp [List.takeWhile_cons, List.dropWhile_cons, hc]
  | a :: xs, ys, hx, hy => by
      have ha : p a = true := hx a (by simp)
      have ih := takeWhile_append_all xs ys (fun b hb => hx b (by simp [hb])) hy
      simp [List.takeWhile_cons, List.dropWhile_cons, ha, ih.1, ih.2]

theorem dropWhile_head_not {p : Char → Bool} :
    ∀ (s : List Char) (c : Char), (s.dropWhile p).head? = some c → p c = false
  | [], c => by simp
  | a :: s, c => by
      rw [List.dropWhile_cons]
      by_cases ha : p a = true
      · rw [if_pos ha]
        exact dropWhile_head_not s c
      · rw [if_neg ha]
        intro h
        rw [List.head?_cons, Option.some.injEq] at h
        subst h
        simpa using ha

theorem isPySpace_elim {c : Char} (h : isPySpace c = true) :
    c = ' ' ∨ c = '\t' ∨ c = '\n' ∨ c = '\r' ∨ c = '\x0b' ∨ c = '\x0c' := by
  simp only [isPySpace, Bool.or_eq_true, beq_iff_eq] at h
  tauto

theorem isPySpace_not_digit {c : Char} (h : isPySpace c = true) : c.isDigit = false := by
  rcases isPySpace_elim h with rfl | rfl | rfl | rfl | rfl | rfl <;> decide

theorem isPySpace_toLower {c : Char} (h : isPySpace c = true) : c.toLower = c := by
  rcases isPySpace_elim h with rfl | rfl | rfl | rfl | rfl | rfl <;> decide

theorem toLower_t_not_space {c : Char} (h : c.toLower = 't') : isPySpace c = false := by
  cases hs : isPySpace c
  · rfl
  · have hcc := isPySpace_toLower hs
    rw [hcc] at h
    subst h
    exact absurd hs (by decide)

theorem matchDigitsTokensHere_iff (s : List Char) :
    matchDigitsTokensHere s = true ↔
      ∃ ds ws t q, s = ds ++ (ws ++ (t ++ q)) ∧ ds ≠ [] ∧
        (∀ c ∈ ds, c.isDigit = true) ∧ ws ≠ [] ∧ (∀ c ∈ ws, isPySpace c = true) ∧
        t.map Char.toLower = tokensLit ∧ RightOk q := by
  constructor
  · intro h
    unfold matchDigitsTokensHere at h
    simp only [Bool.and_eq_true, Bool.not_eq_true'] at h
    obtain ⟨hds, hws, hmt⟩ := h
    rw [List.isEmpty_eq_false] at hds hws
    obtain ⟨t, q, hr2, ht, hq⟩ := (matchTokensHere_iff _).mp hmt
    refine ⟨s.takeWhile Char.isDigit, (s.dropWhile Char.isDigit).takeWhile isPySpace,
      t, q, ?_, hds, ?_, hws, ?_, ht, hq⟩
    · rw [← hr2, List.takeWhile_append_dropWhile, List.takeWhile_append_dropWhile]
    · exact fun c hc => List.mem_takeWhile_imp hc
    · exact fun c hc => List.mem_takeWhile_imp hc
  · rintro ⟨ds, ws, t, q, rfl, hds, hdig, hws, hsp, ht, hq⟩
    have htne : ∃ c t', t = c :: t' ∧ c.toLower = 't' := by
      cases t with
      | nil => simp [tokensLit] at ht
      | cons c t' =>
          simp only [List.map_cons, tokensLit, List.cons.injEq] at ht
          exact ⟨c, t', rfl, ht.1⟩
    obtain ⟨c, t', rfl, hc⟩ := htne
    have hy1 : ∀ d, (ws ++ (c :: t' ++ q)).head? = some d → d.isDigit = false := by
      cases ws with
      | nil => exact absurd rfl hws
      | cons w ws' =>
          intro d hd
          rw [List.cons_append, List.head?_cons, Option.some.injEq] at hd
          subst hd
          exact isPySpace_not_digit (hsp w (List.mem_cons_self w ws'))
    have h1 := takeWhile_append_all ds (ws ++ (c :: t' ++ q)) hdig hy1
    have hy2 : ∀ d, (c :: t' ++ q).head? = some d → isPySpace d = false := by
      intro d hd
      rw [List.cons_append, List.head?_cons, Option.some.injEq] at hd
      subst hd
      exact toLower_t_not_space hc
    have h2 := takeWhile_append_all ws (c :: t' ++ q) hsp hy2
    have hmt : matchTokensHere (c :: t' ++ q) = true :=
      (matchTokensHere_iff _).mpr ⟨c :: t', q, by simp, ht, hq⟩
    simp only [matchDigitsTokensHere]
    rw [h1.1, h1.2, h2.1, h2.2, hmt]
    simp only [Bool.and_eq_true, Bool.not_eq_true', List.isEmpty_eq_false]
    exact ⟨hds, hws, trivial⟩

theorem matchTok_ne_nil {m : List Char} (hm : MatchTok m) : m ≠ [] := by
  rintro rfl
  rcases hm with ⟨ds, ws, t, h, hds, _⟩ | h
  · exact hds (List.append_eq_nil.mp h.symm).1
  · simp [tokensLit] at h

theorem matchHere_iff (s : List Char) :
    (matchDigitsTokensHere s || matchTokensHere s) = true ↔
      ∃ m q, s = m ++ q ∧ MatchTok m ∧ RightOk q := by
  rw [Bool.or_eq_true, matchDigitsTokensHere_iff, matchTokensHere_iff]
  constructor
  · rintro (⟨ds, ws, t, q, hs, hds, hdig, hws, hsp, ht, hq⟩ | ⟨t, q, hs, ht, hq⟩)
    · refine ⟨ds ++ (ws ++ t), q, ?_, Or.inl ⟨ds, ws, t, rfl, hds, hdig, hws, hsp, ht⟩, hq⟩
      rw [hs]
      simp [List.append_assoc]
    · exact ⟨t, q, hs, Or.inr ht, hq⟩
  · rintro ⟨m, q, hs, hm, hq⟩
    rcases hm with ⟨ds, ws, t, rfl, hds, hdig, hws, hsp, ht⟩ | ht
    · refine Or.inl ⟨ds, ws, t, q, ?_, hds, hdig, hws, hsp, ht, hq⟩
      rw [hs]
      simp [List.append_assoc]
    · exact Or.inr ⟨m, q, hs, ht, hq⟩

theorem getLast?_cons_or (c : Char) (p : List Char) (prev : Option Char) :
    (c :: p).getLast?.or prev = p.getLast?.or (some c) := by
  cases p with
  | nil => simp
  | cons d p' =>
      rw [List.getLast?_cons_cons]
      cases hl : (d :: p').getLast? with
      | none => rw [List.getLast?_eq_none_iff] at hl; cases hl
      | some e => simp [Option.or]

theorem tokenSearchFrom_iff :
    ∀ (s : List Char) (prev : Option Char),
      tokenSearchFrom prev s = true ↔
        ∃ p m q, s = p ++ (m ++ q) ∧ MatchTok m ∧ LeftOk prev p ∧ RightOk q
  | [], prev => by
      simp only [tokenSearchFrom, Bool.false_eq_true, false_iff]
      rintro ⟨p, m, q, hs, hm, _, _⟩
      exact matchTok_ne_nil hm (List.append_eq_nil.mp (List.append_eq_nil.mp hs.symm).2).1
  | c :: cs, prev => by
      show ((prevOk prev && (matchDigitsTokensHere (c :: cs) || matchTokensHere (c :: cs)))
          || tokenSearchFrom (some c) cs) = true ↔ _
      rw [Bool.or_eq_true, Bool.and_eq_true, matchHere_iff, tokenSearchFrom_iff cs (some c)]
      constructor
      · rintro (⟨hprev, m, q, hs, hm, hq⟩ | ⟨p, m, q, hs, hm, hl, hq⟩)
        · refine ⟨[], m, q, by simpa using hs, hm, ?_, hq⟩
          simpa [LeftOk] using hprev
        · refine ⟨c :: p, m, q, by rw [List.cons_append, hs], hm, ?_, hq⟩
          unfold LeftOk
          rw [getLast?_cons_or]
          exact hl
      · rintro ⟨p, m, q, hs, hm, hl, hq⟩
        cases p with
        | nil =>
            left
            refine ⟨by simpa [LeftOk] using hl, m, q, by simpa using hs, hm, hq⟩
        | cons a p' =>
            right
            rw [List.cons_append, List.cons.injEq] at hs
            obtain ⟨rfl, hs2⟩ := hs
            refine ⟨p', m, q, hs2, hm, ?_, hq⟩
            unfold LeftOk at hl ⊢
            rw [getLast?_cons_or] at hl
            exact hl

theorem tokensOcc_iff (s : List Char) :
    tokenSearchFrom none s = true ↔ TokensOcc s :=
  tokenSearchFrom_iff s none

/-- The classifier decides exactly the presence of a whole-word token
occurrence in the joined 20-line tail. -/
theorem detect_active_iff (text : String) :
    detect_active text = true ↔ TokensOcc (tailJoined text) :=
  tokensOcc_iff (tailJoined text)

/-! ### Lifting a per-line occurrence into the joined tail -/

theorem intercalateNL_decomp :
    ∀ (ls : List (List Char)) (l : List Char), l ∈ ls →
      ∃ A B, intercalateNL ls = A ++ (l ++ B) ∧
        (A = [] ∨ A.getLast? = some '\n') ∧ (B = [] ∨ B.head? = some '\n')
  | [], l, h => absurd h (List.not_mem_nil l)
  | x :: xs, l, h => by
      rcases List.mem_cons.mp h with rfl | hmem
      · cases xs with
        | nil => exact ⟨[], [], by simp [intercalateNL], Or.inl rfl, Or.inl rfl⟩
        | cons y ys =>
            refine ⟨[], '\n' :: intercalateNL (y :: ys), ?_, Or.inl rfl, Or.inr rfl⟩
            simp [intercalateNL]
      · obtain ⟨A', B', hAB, hA, hB⟩ := intercalateNL_decomp xs l hmem
        have hxs : xs ≠ [] := List.ne_nil_of_mem hmem
        cases xs with
        | nil => exact absurd rfl hxs
        | cons y ys =>
            refine ⟨x ++ '\n' :: A', B', ?_, ?_, hB⟩
            · show intercalateNL (x :: y :: ys) = (x ++ '\n' :: A') ++ (l ++ B')
              rw [show intercalateNL (x :: y :: ys)
                    = x ++ '\n' :: intercalateNL (y :: ys) from rfl, hAB]
              simp
            · right
              cases A' with
              | nil =>
                  rw [show x ++ '\n' :: ([] : List Char) = x ++ ['\n'] from rfl]
                  exact List.getLast?_concat x
              | cons a A'' =>
                  rcases hA with h0 | hlast
                  · cases h0
                  · rw [List.getLast?_append_of_ne_nil x (by simp),
                      List.getLast?_cons_cons]
                    exact hlast

theorem tokensOcc_of_mem_line {ls : List (List Char)} {l : List Char}
    (hmem : l ∈ ls) (hocc : TokensOcc l) : TokensOcc (intercalateNL ls) := by
  obtain ⟨A, B, hAB, hA, hB⟩ := intercalateNL_decomp ls l hmem
  obtain ⟨p, m, q, hl, hm, hlft, hrt⟩ := hocc
  refine ⟨A ++ p, m, q ++ B, ?_, hm, ?_, ?_⟩
  · rw [hAB, hl]
    simp [List.append_assoc]
  · unfold LeftOk at hlft ⊢
    cases hp : p.getLast? with
    | some c =>
        rw [hp] at hlft
        have hpne : p ≠ [] := by
          intro h0
          rw [h0] at hp
          cases hp
        rw [List.getLast?_append_of_ne_nil A hpne, hp]
        exact hlft
    | none =>
        rw [List.getLast?_eq_none_iff] at hp
        subst hp
        rw [List.append_nil]
        rcases hA with rfl | hlastA
        · decide
        · rw [hlastA]
          decide
  · intro c hc
    cases q with
    | nil =>
        rw [List.nil_append] at hc
        rcases hB with rfl | hheadB
        · cases hc
        · rw [hheadB, Option.some.injEq] at hc
          subst hc
          decide
    | cons d q' =>
        rw [List.cons_append, List.head?_cons, Option.some.injEq] at hc
        subst hc
        exact hrt d rfl

/-! ### Claims about the activity classifier -/

/-- **C2**: the classifier answers false exactly when the joined 20-line
tail holds no whole-word token occurrence; an occurrence inside one of the
tail's lines forces true; and the answer depends only on the last 20
non-empty stripped lines, so occurrences confined to lines above that tail
cannot change a false answer. -/
theorem c2_classifier_tail (T : String) :
    (¬ TokensOcc (tailJoined T) → detect_active T = false) ∧
    ((∃ l ∈ tailLines T, TokensOcc l) → detect_active T = true) ∧
    (∀ T' : String, tailLines T' = tailLines T → detect_active T' = detect_active T) := by
  refine ⟨?_, ?_, ?_⟩
  · intro h
    cases hd : detect_active T with
    | false => rfl
    | true => exact absurd ((detect_active_iff T).mp hd) h
  · rintro ⟨l, hmem, hocc⟩
    exact (detect_active_iff T).mpr (tokensOcc_of_mem_line hmem hocc)
  · intro T' h
    unfold detect_active tailJoined
    rw [h]

/-- **C9**: a text whose tail has a line ending in digits immediately
followed by a line beginning with the word `tokens` classifies as active,
the digits-whitespace-tokens alternative itself matches the joined tail
(its `\s+` spanning the inserted newline), yet no single line of the text
matches that alternative. -/
theorem c9_cross_line_match :
    detect_active "working hard 42\ntokens left\ndone" = true ∧
    digitsTokensSearchFrom none (tailJoined "working hard 42\ntokens left\ndone") = true ∧
    (∀ l ∈ strippedLines "working hard 42\ntokens left\ndone",
        digitsTokensSearchFrom none l = false) :=
  ⟨by decide, by decide, by decide⟩

/-! ### Tracker step characterisations -/

theorem lookupA_insertA_self :
    ∀ (m : List (String × PaneState)) (k : String) (v : PaneState),
      lookupA (insertA m k v) k = some v
  | [], k, v => by simp [insertA, lookupA]
  | (k', w) :: rest, k, v => by
      by_cases h : (k' == k) = true
      · simp only [insertA, if_pos h, lookupA]
      · simp only [insertA, if_neg h, lookupA]
        exact lookupA_insertA_self rest k v

theorem insertA_lookup_eq :
    ∀ (m : List (String × PaneState)) (k : String) (v : PaneState),
      lookupA m k = some v → insertA m k v = m
  | [], k, v => by
      intro hl
      cases hl
  | (k', w) :: rest, k, v => by
      intro hl
      simp only [lookupA] at hl
      simp only [insertA]
      by_cases h : (k' == k) = true
      · rw [if_pos h] at hl
        rw [if_pos h, Option.some.injEq] at *
        rw [hl]
      · rw [if_neg h] at hl
        rw [if_neg h, insertA_lookup_eq rest k v hl]

theorem getState_insertA_self (m : List (String × PaneState)) (k : String)
    (v : PaneState) : getState (insertA m k v) k = v := by
  unfold getState
  rw [lookupA_insertA_self]
  rfl

theorem lookupA_getState {m : List (String × PaneState)} {k : String} {v : Bool}
    (h : (getState m k).last_seen_active = some v) :
    lookupA m k = some (getState m k) := by
  cases hl : lookupA m k with
  | none =>
      unfold getState at h
      rw [hl] at h
      exact Option.noConfusion h
  | some st =>
      have hg : getState m k = st := by
        unfold getState
        rw [hl]
        rfl
      rw [hg]

/-- First observation: record the value, stamp the time, emit Initialized,
do not notify. -/
theorem init_step (cfg : Config) (m : List (String × PaneState)) (pane : Pane)
    (v : Bool) (now : Nat) (g : GitResult) (r : PostResult)
    (h : (getState m pane.pane_id).last_seen_active = none) :
    maybe_notify_transition cfg m pane v now g r =
      ⟨insertA m pane.pane_id ⟨some v, now⟩, .Initialized, false, none⟩ := by
  simp only [maybe_notify_transition, h]

/-- A repeated observation: nothing changes at all. -/
theorem nochange_step (cfg : Config) (m : List (String × PaneState)) (pane : Pane)
    (v : Bool) (now : Nat) (g : GitResult) (r : PostResult)
    (h : (getState m pane.pane_id).last_seen_active = some v) :
    maybe_notify_transition cfg m pane v now g r = ⟨m, .NoChange, false, none⟩ := by
  have hlk := lookupA_getState h
  have hst : (⟨some v, (getState m pane.pane_id).last_transition_ts⟩ : PaneState)
      = getState m pane.pane_id := by
    rw [← h]
  simp only [maybe_notify_transition, h, Bool.and_not_self, Bool.not_and_self,
    Bool.false_eq_true, if_false]
  rw [hst, insertA_lookup_eq m pane.pane_id _ hlk]

/-- The Active→Idle edge: dispatch the notification, commit the new value
and the transition time. -/
theorem active_idle_step (cfg : Config) (m : List (String × PaneState)) (pane : Pane)
    (now : Nat) (g : GitResult) (r : PostResult)
    (h : (getState m pane.pane_id).last_seen_active = some true) :
    maybe_notify_transition cfg m pane false now g r =
      ⟨insertA m pane.pane_id ⟨some false, now⟩, .BecameIdle, true,
        some (send_idle_notification cfg.dry_run cfg.webhook_url pane g r)⟩ := by
  simp only [maybe_notify_transition, h]
  rfl

/-- The Idle→Active edge: log-only, stamp the time. -/
theorem became_active_step (cfg : Config) (m : List (String × PaneState)) (pane : Pane)
    (now : Nat) (g : GitResult) (r : PostResult)
    (h : (getState m pane.pane_id).last_seen_active = some false) :
    maybe_notify_transition cfg m pane true now g r =
      ⟨insertA m pane.pane_id ⟨some true, now⟩, .BecameActive, false, none⟩ := by
  simp only [maybe_notify_transition, h]
  rfl

theorem send_attempts_le_one (dry : Bool) (wh : Option String) (pane : Pane)
    (g : GitResult) (r : PostResult) :
    (send_idle_notification dry wh pane g r).attempts ≤ 1 := by
  cases dry
  · cases hp : post_discord_message wh (idle_message pane g) r <;>
      simp [send_idle_notification, hp]
  · simp [send_idle_notification]

theorem send_message_eq (dry : Bool) (wh : Option String) (pane : Pane)
    (g : GitResult) (r : PostResult) :
    (send_idle_notification dry wh pane g r).message = idle_message pane g := by
  cases dry
  · cases hp : post_discord_message wh (idle_message pane g) r <;>
      simp [send_idle_notification, hp]
  · simp [send_idle_notification]

/-! ### Claims about the transition tracker -/

/-- **C1**: for any pane identity, the observation sequence
(active, active, idle, idle, active) from a fresh tracker produces the
events (Initialized, NoChange, BecameIdle, NoChange, BecameActive), and the
dispatcher is invoked exactly once, on the third observation. -/
theorem c1_observation_sequence (cfg : Config) (pane : Pane)
    (e1 e2 e3 e4 e5 : PollEnv) :
    (runSeq cfg [] pane
        [(true, e1), (true, e2), (false, e3), (false, e4), (true, e5)]).2 =
      [(.Initialized, false), (.NoChange, false), (.BecameIdle, true),
       (.NoChange, false), (.BecameActive, false)] := by
  have h1 : (getState [] pane.pane_id).last_seen_active = none := rfl
  have s1 := init_step cfg [] pane true e1.now e1.git e1.resp h1
  have h2 : (getState (insertA [] pane.pane_id ⟨some true, e1.now⟩)
      pane.pane_id).last_seen_active = some true := by
    rw [getState_insertA_self]
  have s2 := nochange_step cfg (insertA [] pane.pane_id ⟨some true, e1.now⟩)
    pane true e2.now e2.git e2.resp h2
  have s3 := active_idle_step cfg (insertA [] pane.pane_id ⟨some true, e1.now⟩)
    pane e3.now e3.git e3.resp h2
  have h3 : (getState (insertA (insertA [] pane.pane_id ⟨some true, e1.now⟩)
      pane.pane_id ⟨some false, e3.now⟩) pane.pane_id).last_seen_active
      = some false := by
    rw [getState_insertA_self]
  have s4 := nochange_step cfg (insertA (insertA [] pane.pane_id ⟨some true, e1.now⟩)
    pane.pane_id ⟨some false, e3.now⟩) pane false e4.now e4.git e4.resp h3
  have s5 := became_active_step cfg
    (insertA (insertA [] pane.pane_id ⟨some true, e1.now⟩)
      pane.pane_id ⟨some false, e3.now⟩) pane e5.now e5.git e5.resp h3
  simp only [runSeq, s1, s2, s3, s4, s5]

/-- **C3**: the first observation of a pane identity emits Initialized and
does not invoke the dispatcher, whatever the observed value. -/
theorem c3_first_observation (cfg : Config) (m : List (String × PaneState))
    (pane : Pane) (v : Bool) (now : Nat) (g : GitResult) (r : PostResult)
    (h : (getState m pane.pane_id).last_seen_active = none) :
    (maybe_notify_transition cfg m pane v now g r).event = .Initialized ∧
    (maybe_notify_transition cfg m pane v now g r).dispatched = false := by
  rw [init_step cfg m pane v now g r h]
  exact ⟨rfl, rfl⟩

theorem c3_first_observation_witness :
    (maybe_notify_transition ⟨none, true⟩ [] samplePane true 7 .exc .failure).event
        = .Initialized ∧
    (maybe_notify_transition ⟨none, true⟩ [] samplePane true 7 .exc .failure).dispatched
        = false :=
  c3_first_observation ⟨none, true⟩ [] samplePane true 7 .exc .failure (by decide)

/-- **C4**: past the first observation, an observation equal to the stored
value changes nothing — no dispatch, the whole state map (hence the stored
timestamp) is untouched — and any number of repetitions still dispatches
nothing and leaves the map untouched. -/
theorem c4_nochange_idempotent (cfg : Config) (m : List (String × PaneState))
    (pane : Pane) (v : Bool) (now : Nat) (g : GitResult) (r : PostResult)
    (h : (getState m pane.pane_id).last_seen_active = some v) :
    maybe_notify_transition cfg m pane v now g r = ⟨m, .NoChange, false, none⟩ ∧
    ∀ (envs : List PollEnv),
      (runSeq cfg m pane (envs.map (fun e => (v, e)))).1 = m ∧
      ∀ pr ∈ (runSeq cfg m pane (envs.map (fun e => (v, e)))).2,
        pr = (TransitionEvent.NoChange, false) := by
  refine ⟨nochange_step cfg m pane v now g r h, ?_⟩
  intro envs
  induction envs with
  | nil =>
      refine ⟨rfl, ?_⟩
      intro pr hpr
      simp [runSeq] at hpr
  | cons e es ih =>
      have hstep := nochange_step cfg m pane v e.now e.git e.resp h
      simp only [List.map_cons, runSeq, hstep]
      refine ⟨ih.1, ?_⟩
      intro pr hpr
      simp only [List.mem_cons] at hpr
      rcases hpr with rfl | hmem
      · rfl
      · exact ih.2 pr hmem

theorem c4_nochange_idempotent_witness :
    maybe_notify_transition ⟨none, true⟩ sampleMapActive samplePane true 9 .exc .failure
        = ⟨sampleMapActive, .NoChange, false, none⟩ ∧
    (runSeq ⟨none, true⟩ sampleMapActive samplePane
        ([⟨9, .exc, .failure⟩, ⟨11, .exc, .failure⟩].map (fun e => (true, e)))).1
      = sampleMapActive := by
  have hc := c4_nochange_idempotent ⟨none, true⟩ sampleMapActive samplePane true 9
    .exc .failure (by decide)
  exact ⟨hc.1, (hc.2 [⟨9, .exc, .failure⟩, ⟨11, .exc, .failure⟩]).1⟩

/-- **C6**: on an Active→Idle transition the dispatcher is invoked and the
state transition is committed — new value idle, timestamp stamped — no
matter how delivery went (the resulting map does not depend on the HTTP
outcome); at most one delivery attempt is made, and when the post raised or
returned non-2xx the error is swallowed (`delivered = false`, the step
still returns the committed state). -/
theorem c6_delivery_failure_commit (cfg : Config) (m : List (String × PaneState))
    (pane : Pane) (now : Nat) (g : GitResult) (r r' : PostResult)
    (h : (getState m pane.pane_id).last_seen_active = some true) :
    (maybe_notify_transition cfg m pane false now g r).event = .BecameIdle ∧
    (maybe_notify_transition cfg m pane false now g r).dispatched = true ∧
    getState (maybe_notify_transition cfg m pane false now g r).map pane.pane_id
      = ⟨some false, now⟩ ∧
    (∀ n, (maybe_notify_transition cfg m pane false now g r).notify = some n →
      n.attempts ≤ 1 ∧ n.message = idle_message pane g ∧
      ∀ e, post_discord_message cfg.webhook_url (idle_message pane g) r = .error e →
        n.delivered = false) ∧
    (maybe_notify_transition cfg m pane false now g r).map
      = (maybe_notify_transition cfg m pane false now g r').map := by
  rw [active_idle_step cfg m pane now g r h, active_idle_step cfg m pane now g r' h]
  refine ⟨rfl, rfl, getState_insertA_self m pane.pane_id _, ?_, rfl⟩
  intro n hn
  rw [Option.some.injEq] at hn
  subst hn
  refine ⟨send_attempts_le_one _ _ _ _ _, send_message_eq _ _ _ _ _, ?_⟩
  intro e hpe
  cases hdr : cfg.dry_run
  · simp only [send_idle_notification, hdr, Bool.false_eq_true, if_false]
    rw [hpe]
  · simp [send_idle_notification, hdr]

theorem c6_delivery_failure_commit_witness :
    (maybe_notify_transition ⟨some "https://h", false⟩ sampleMapActive samplePane
        false 9 .exc .failure).event = .BecameIdle ∧
    getState (maybe_notify_transition ⟨some "https://h", false⟩ sampleMapActive
        samplePane false 9 .exc .failure).map samplePane.pane_id
      = ⟨some false, 9⟩ := by
  have hc := c6_delivery_failure_commit ⟨some "https://h", false⟩ sampleMapActive
    samplePane 9 .exc .failure (.success 200) (by decide)
  exact ⟨hc.1, hc.2.2.1⟩

/-- **C8**: in dry-run mode an Active→Idle transition produces a
notification record with the very message non-dry mode would deliver, and
zero outbound post attempts. -/
theorem c8_dry_run_suppression (m : List (String × PaneState)) (pane : Pane)
    (now : Nat) (g : GitResult) (r r' : PostResult) (wh wh' : Option String)
    (h : (getState m pane.pane_id).last_seen_active = some true) :
    ∃ n, (maybe_notify_transition ⟨wh, true⟩ m pane false now g r).notify = some n ∧
      n.attempts = 0 ∧ n.message = idle_message pane g ∧
      ∀ n', (maybe_notify_transition ⟨wh', false⟩ m pane false now g r').notify
          = some n' → n'.message = n.message := by
  rw [active_idle_step ⟨wh, true⟩ m pane now g r h]
  refine ⟨send_idle_notification true wh pane g r, rfl, rfl,
    send_message_eq _ _ _ _ _, ?_⟩
  intro n' hn'
  rw [active_idle_step ⟨wh', false⟩ m pane now g r' h, Option.some.injEq] at hn'
  subst hn'
  rw [send_message_eq, send_message_eq]

theorem c8_dry_run_suppression_witness :
    ∃ n, (maybe_notify_transition ⟨none, true⟩ sampleMapActive samplePane
        false 9 .exc .failure).notify = some n ∧
      n.attempts = 0 ∧ n.message = idle_message samplePane .exc ∧
      ∀ n', (maybe_notify_transition ⟨some "https://h", false⟩ sampleMapActive
          samplePane false 9 .exc (.success 200)).notify = some n' →
        n'.message = n.message :=
  c8_dry_run_suppression sampleMapActive samplePane 9 .exc .failure (.success 200)
    none (some "https://h") (by decide)

/-! ### Claims about the monitoring filter and the message -/

theorem should_monitor_eq (mc mt : Option (String → Bool))
    (cap : Except Unit String) (pane : Pane) :
    should_monitor_pane mc mt cap pane = (cmd_matches mc pane || text_fallback mt cap) := by
  unfold should_monitor_pane cmd_matches text_fallback
  cases mc with
  | none =>
      cases mt with
      | none => simp
      | some p => cases cap <;> simp
  | some p =>
      cases hp : p pane.current_command
      · cases mt with
        | none => simp [hp]
        | some p' => cases cap <;> simp [hp]
      · simp [hp]

theorem cmd_matches_false {mc : Option (String → Bool)} {pane : Pane}
    (hnc : ∀ p, mc = some p → p pane.current_command = false) :
    cmd_matches mc pane = false := by
  cases mc with
  | none => rfl
  | some p => exact hnc p rfl

theorem text_fallback_iff (mt : Option (String → Bool)) (cap : Except Unit String) :
    text_fallback mt cap = true ↔
      ∃ p t, mt = some p ∧ cap = Except.ok t ∧ p t = true := by
  constructor
  · intro hr
    cases mt with
    | none => exact Bool.noConfusion hr
    | some p =>
        cases cap with
        | error e => exact Bool.noConfusion hr
        | ok t => exact ⟨p, t, rfl, rfl, hr⟩
  · rintro ⟨p, t, rfl, rfl, hpt⟩
    exact hpt

theorem text_fallback_error (mt : Option (String → Bool)) (e : Unit) :
    text_fallback mt (Except.error e) = false := by
  cases mt <;> rfl

/-- **C5**: a pane whose command matches the command pattern is monitored
regardless of buffer contents; when the command does not match, the pane is
monitored exactly when the fallback 40-line capture succeeded and its text
matches the text pattern — in particular a failed fallback capture, or a
pane matching neither pattern, is not monitored. -/
theorem c5_monitoring_filter (mc mt : Option (String → Bool))
    (cap : Except Unit String) (pane : Pane) :
    ((∃ p, mc = some p ∧ p pane.current_command = true) →
        should_monitor_pane mc mt cap pane = true) ∧
    ((∀ p, mc = some p → p pane.current_command = false) →
      ((should_monitor_pane mc mt cap pane = true ↔
          ∃ p t, mt = some p ∧ cap = Except.ok t ∧ p t = true) ∧
        ∀ e, cap = Except.error e → should_monitor_pane mc mt cap pane = false)) := by
  rw [should_monitor_eq]
  constructor
  · rintro ⟨p, rfl, hp⟩
    have : cmd_matches (some p) pane = true := hp
    rw [this, Bool.true_or]
  · intro hnc
    rw [cmd_matches_false hnc, Bool.false_or]
    refine ⟨text_fallback_iff mt cap, ?_⟩
    intro e he
    rw [he]
    exact text_fallback_error mt e

theorem c5_monitoring_filter_witness :
    should_monitor_pane (some (fun s => s == "cursor-agent"))
        (some (fun t => t == "Cursor Agent")) (Except.error ()) samplePane = true ∧
    should_monitor_pane (some (fun s => s == "bash"))
        (some (fun t => t == "Cursor Agent")) (Except.error ()) samplePane = false := by
  constructor
  · exact (c5_monitoring_filter (some (fun s => s == "cursor-agent"))
      (some (fun t => t == "Cursor Agent")) (Except.error ()) samplePane).1
      ⟨fun s => s == "cursor-agent", rfl, by decide⟩
  · exact ((c5_monitoring_filter (some (fun s => s == "bash"))
      (some (fun t => t == "Cursor Agent")) (Except.error ()) samplePane).2
      (fun p hp => by
        rw [Option.some.injEq] at hp
        subst hp
        decide)).2 () rfl

theorem idle_message_eq (pane : Pane) (g : GitResult) :
    idle_message pane g = base_message pane ++
      (match get_git_branch g with
       | some b => " (branch " ++ b ++ ")"
       | none => "") := rfl

/-- **C7**: the idle message always contains the pane's
`session:window.pane` reference and its working-directory path, and it ends
with the branch parenthetical exactly when the branch lookup ran with exit
code 0 and produced stripped output that is non-empty and not `HEAD`; a
raised lookup, non-zero exit, empty output or `HEAD` all just omit the
parenthetical. -/
theorem c7_message_reference_path_branch (pane : Pane) (g : GitResult) :
    (∃ a b, idle_message pane g = a ++ pane.human_ref ++ b) ∧
    (∃ a b, idle_message pane g = a ++ pane.current_path ++ b) ∧
    (match g with
     | .exc => idle_message pane g = base_message pane
     | .ran rc out =>
         if rc = 0 ∧ (⟨pyStrip out.data⟩ : String) ≠ "" ∧
             (⟨pyStrip out.data⟩ : String) ≠ "HEAD"
         then idle_message pane g
             = base_message pane ++ " (branch " ++ (⟨pyStrip out.data⟩ : String) ++ ")"
         else idle_message pane g = base_message pane) := by
  refine ⟨?_, ?_, ?_⟩
  · refine ⟨"Cursor-Agent idle in ",
      " â€” " ++ pane.current_path ++
        (match get_git_branch g with
         | some b => " (branch " ++ b ++ ")"
         | none => ""), ?_⟩
    unfold idle_message
    simp [String.append_assoc]
  · refine ⟨"Cursor-Agent idle in " ++ pane.human_ref ++ " â€” ",
      (match get_git_branch g with
       | some b => " (branch " ++ b ++ ")"
       | none => ""), ?_⟩
    unfold idle_message
    simp [String.append_assoc]
  · cases g with
    | exc =>
        rw [idle_message_eq]
        show base_message pane ++ "" = base_message pane
        exact String.append_empty _
    | ran rc out =>
        show if rc = 0 ∧ (⟨pyStrip out.data⟩ : String) ≠ "" ∧
            (⟨pyStrip out.data⟩ : String) ≠ "HEAD"
          then idle_message pane (.ran rc out)
              = base_message pane ++ " (branch " ++ (⟨pyStrip out.data⟩ : String) ++ ")"
          else idle_message pane (.ran rc out) = base_message pane
        by_cases hc : rc = 0 ∧ (⟨pyStrip out.data⟩ : String) ≠ "" ∧
            (⟨pyStrip out.data⟩ : String) ≠ "HEAD"
        · rw [if_pos hc, idle_message_eq]
          have hgb : get_git_branch (.ran rc out) = some ⟨pyStrip out.data⟩ := by
            show (if rc = 0 ∧ (⟨pyStrip out.data⟩ : String) ≠ "" ∧
                  (⟨pyStrip out.data⟩ : String) ≠ "HEAD"
                then some (⟨pyStrip out.data⟩ : String) else none)
              = some (⟨pyStrip out.data⟩ : String)
            rw [if_pos hc]
          rw [hgb]
          simp [String.append_assoc]
        · rw [if_neg hc, idle_message_eq]
          have hgb : get_git_branch (.ran rc out) = none := by
            show (if rc = 0 ∧ (⟨pyStrip out.data⟩ : String) ≠ "" ∧
                  (⟨pyStrip out.data⟩ : String) ≠ "HEAD"
                then some (⟨pyStrip out.data⟩ : String) else none) = none
            rw [if_neg hc]
          rw [hgb]
          exact String.append_empty _

/-- **C10**: the first observation stamps the pane's timestamp with the
current time although no transition happened; in general the stored
timestamp is rewritten to the step's clock exactly on the events other than
NoChange (Initialized, BecameIdle, BecameActive) and kept on NoChange, so
with positive clock values it is positive from the first observation on. -/
theorem c10_timestamp_semantics (cfg : Config) (m : List (String × PaneState))
    (pane : Pane) (v : Bool) (now : Nat) (g : GitResult) (r : PostResult) :
    ((getState m pane.pane_id).last_seen_active = none →
      (maybe_notify_transition cfg m pane v now g r).event = .Initialized ∧
      getState (maybe_notify_transition cfg m pane v now g r).map pane.pane_id
        = ⟨some v, now⟩) ∧
    ((maybe_notify_transition cfg m pane v now g r).event ≠ .NoChange →
      (getState (maybe_notify_transition cfg m pane v now g r).map
          pane.pane_id).last_transition_ts = now) ∧
    ((maybe_notify_transition cfg m pane v now g r).event = .NoChange →
      (getState (maybe_notify_transition cfg m pane v now g r).map
          pane.pane_id).last_transition_ts
        = (getState m pane.pane_id).last_transition_ts) ∧
    (0 < now →
      ((getState m pane.pane_id).last_seen_active = none ∨
        0 < (getState m pane.pane_id).last_transition_ts) →
      0 < (getState (maybe_notify_transition cfg m pane v now g r).map
          pane.pane_id).last_transition_ts) := by
  cases hls : (getState m pane.pane_id).last_seen_active with
  | none =>
      rw [init_step cfg m pane v now g r hls]
      refine ⟨fun _ => ⟨rfl, getState_insertA_self m pane.pane_id _⟩, ?_, ?_, ?_⟩
      · intro _
        rw [getState_insertA_self]
      · intro hev
        exact absurd hev (by intro hx; cases hx)
      · intro hpos _
        rw [getState_insertA_self]
        exact hpos
  | some prev =>
      have hcontra : ∀ w : Bool, ¬ ((some prev : Option Bool) = none) := by
        intro w hx
        cases hx
      rcases Bool.eq_false_or_eq_true prev with hp | hp <;>
        rcases Bool.eq_false_or_eq_true v with hv | hv <;>
        subst hp <;> subst hv
      · -- prev = true, v = true: NoChange
        rw [nochange_step cfg m pane true now g r hls]
        refine ⟨fun hx => absurd hx (hcontra true), ?_, fun _ => rfl, ?_⟩
        · intro hev
          exact absurd rfl hev
        · intro hpos hd
          rcases hd with hx | hd
          · exact absurd hx (hcontra true)
          · exact hd
      · -- prev = true, v = false: BecameIdle
        rw [active_idle_step cfg m pane now g r hls]
        refine ⟨fun hx => absurd hx (hcontra true), ?_, ?_, ?_⟩
        · intro _
          rw [getState_insertA_self]
        · intro hev
          exact absurd hev (by intro hx; cases hx)
        · intro hpos _
          rw [getState_insertA_self]
          exact hpos
      · -- prev = false, v = true: BecameActive
        rw [became_active_step cfg m pane now g r hls]
        refine ⟨fun hx => absurd hx (hcontra false), ?_, ?_, ?_⟩
        · intro _
          rw [getState_insertA_self]
        · intro hev
          exact absurd hev (by intro hx; cases hx)
        · intro hpos _
          rw [getState_insertA_self]
          exact hpos
      · -- prev = false, v = false: NoChange
        rw [nochange_step cfg m pane false now g r hls]
        refine ⟨fun hx => absurd hx (hcontra false), ?_, fun _ => rfl, ?_⟩
        · intro hev
          exact absurd rfl hev
        · intro hpos hd
          rcases hd with hx | hd
          · exact absurd hx (hcontra false)
          · exact hd

theorem c10_timestamp_semantics_witness :
    (maybe_notify_transition ⟨none, true⟩ [] samplePane false 7 .exc .failure).event
        = .Initialized ∧
    getState (maybe_notify_transition ⟨none, true⟩ [] samplePane false 7
        .exc .failure).map samplePane.pane_id = ⟨some false, 7⟩ ∧
    0 < (getState (maybe_notify_transition ⟨none, true⟩ [] samplePane false 7
        .exc .failure).map samplePane.pane_id).last_transition_ts := by
  obtain ⟨h1, _, _, h4⟩ :=
    c10_timestamp_semantics ⟨none, true⟩ [] samplePane false 7 .exc .failure
  obtain ⟨he, hs⟩ := h1 (by decide)
  exact ⟨he, hs, h4 (by decide) (Or.inl (by decide))⟩

theorem c2_classifier_tail_witness :
    detect_active "quiet\nquiet\nquiet\nquiet\nquiet\nquiet\nquiet\nquiet\nquiet\nquiet\nquiet\nquiet\nquiet\nquiet\nquiet\nquiet\nquiet\nquiet\nquiet\nquiet" = false ∧
    detect_active "12 tokens" = true ∧
    detect_active "55 tokens\nquiet\nquiet\nquiet\nquiet\nquiet\nquiet\nquiet\nquiet\nquiet\nquiet\nquiet\nquiet\nquiet\nquiet\nquiet\nquiet\nquiet\nquiet\nquiet\nquiet" = false := by
  refine ⟨?_, ?_, ?_⟩
  · exact (c2_classifier_tail "quiet\nquiet\nquiet\nquiet\nquiet\nquiet\nquiet\nquiet\nquiet\nquiet\nquiet\nquiet\nquiet\nquiet\nquiet\nquiet\nquiet\nquiet\nquiet\nquiet").1
      (fun h => absurd ((tokensOcc_iff _).mpr h) (by decide))
  · exact (c2_classifier_tail "12 tokens").2.1
      ⟨"12 tokens".data, by decide,
        (tokensOcc_iff ("12 tokens".data)).mp (by decide)⟩
  · rw [(c2_classifier_tail "quiet\nquiet\nquiet\nquiet\nquiet\nquiet\nquiet\nquiet\nquiet\nquiet\nquiet\nquiet\nquiet\nquiet\nquiet\nquiet\nquiet\nquiet\nquiet\nquiet").2.2 "55 tokens\nquiet\nquiet\nquiet\nquiet\nquiet\nquiet\nquiet\nquiet\nquiet\nquiet\nquiet\nquiet\nquiet\nquiet\nquiet\nquiet\nquiet\nquiet\nquiet\nquiet" (by decide)]
    exact (c2_classifier_tail "quiet\nquiet\nquiet\nquiet\nquiet\nquiet\nquiet\nquiet\nquiet\nquiet\nquiet\nquiet\nquiet\nquiet\nquiet\nquiet\nquiet\nquiet\nquiet\nquiet").1
      (fun h => absurd ((tokensOcc_iff _).mpr h) (by decide))
